import Mathlib

/-!
Shallow embedding of the UMS sampling core (src/ums-core/src/ums_core.c with
src/ums-core/include/ums/sampling.h and ums_core.h).

Modelling conventions:
- Machine integers are `Nat` with `% 2 ^ 32` where a `uint32_t` can wrap
  (the software timestamp counter).  Buffer-role indices (`uint8_t`) only
  ever hold 0, 1 or 2, so they are plain `Nat`.
- A C `float` is modelled by its 32-bit pattern (a `Nat` below `2 ^ 32`);
  `UMSUpdate` copies a traced variable's float verbatim, which is exactly
  a copy of the pattern.
- Pointers are `Nat` addresses; a nullable pointer argument is `Option Nat`.
  The contents of caller memory at the instant of an `UMSUpdate` call are an
  environment `env : Nat → Nat` mapping an address to the 32-bit pattern
  stored there.
- The external callbacks (`transmit_fn`, `enter_critical`, `exit_critical`)
  are modelled by presence flags in the state plus an event trace: each
  operation returns, besides its result and successor state, the list of
  callback invocations it performed, in order.
- The external time provider is modelled by a per-call oracle argument
  `providerTime` (the `uint32_t` the provider would return for this call);
  it is consulted only when the state says a provider is configured.
-/

/-- UMS_MAX_CHANNELS from sampling.h (the header actually included by
ums_core.c; the unused legacy header triple_buffer.h declares a different
constant that never reaches the compiled core). -/
def UMS_MAX_CHANNELS : Nat := 6

/-- ums_sample_size from sampling.h: sizeof(uint32_t) + sizeof(uint8_t) +
channels * sizeof(float). -/
def ums_sample_size (channels : Nat) : Nat := 4 + 1 + channels * 4

/-- ums_sample_t from sampling.h: a packed record of a 32-bit timestamp, a
channel-count byte, and UMS_MAX_CHANNELS float slots.  Floats are stored as
their 32-bit patterns. -/
structure Sample where
  timestamp : Nat
  channels : Nat
  values : List Nat
deriving DecidableEq

/-- The all-zero sample, as produced by memset. -/
def zeroSample : Sample :=
  { timestamp := 0, channels := 0, values := List.replicate UMS_MAX_CHANNELS 0 }

/-- The setup configuration ums_core_transmission_config_t, reduced to the
presence of each callback pointer (the engine only ever tests them against
NULL and invokes them). -/
structure Config where
  has_transmit : Bool
  has_enter : Bool
  has_exit : Bool
  has_time_provider : Bool
deriving DecidableEq

/-- ums_state_t from ums_core.c.  trace_vars is the fixed array of
UMS_MAX_CHANNELS pointer cells; buffers is the fixed array of NUM_BUFFERS
sample slots. -/
structure UMSState where
  has_transmit : Bool
  has_enter : Bool
  has_exit : Bool
  has_time_provider : Bool
  trace_vars : List Nat
  channel_count : Nat
  buffers : List Sample
  write_idx : Nat
  pending_idx : Nat
  transmit_idx : Nat
  transmission_active : Bool
  initialized : Bool
  timestamp : Nat
deriving DecidableEq

/-- The fully zeroed state: the initial value of the static instance
(`= {0}`) and the result of `memset(&ums_state, 0, sizeof(ums_state_t))`. -/
def zeroState : UMSState :=
  { has_transmit := false
    has_enter := false
    has_exit := false
    has_time_provider := false
    trace_vars := List.replicate UMS_MAX_CHANNELS 0
    channel_count := 0
    buffers := List.replicate 3 zeroSample
    write_idx := 0
    pending_idx := 0
    transmit_idx := 0
    transmission_active := false
    initialized := false
    timestamp := 0 }

/-- One recorded external-callback invocation. -/
inductive Event where
  | enterCrit : Event
  | exitCrit : Event
  | transmit : Nat → Sample → Nat → Event
deriving DecidableEq

/-- The helper enter_critical(): invokes the enter callback only when its
pointer in the current state is non-NULL. -/
def critEnterEvents (s : UMSState) : List Event :=
  if s.has_enter then [Event.enterCrit] else []

/-- The helper exit_critical(): invokes the exit callback only when its
pointer in the current state is non-NULL. -/
def critExitEvents (s : UMSState) : List Event :=
  if s.has_exit then [Event.exitCrit] else []

/-- UMSSetup from ums_core.c: rejects a NULL config, a NULL transmit
callback, and an already-initialized engine; otherwise memsets the state to
zero, copies the four callback pointers, binds the roles to slots 0, 1, 2
and marks the engine initialized. -/
def UMSSetup (pConfig : Option Config) (s : UMSState) : Bool × UMSState :=
  match pConfig with
  | none => (false, s)
  | some cfg =>
    if cfg.has_transmit = false then (false, s)
    else if s.initialized then (false, s)
    else
      (true,
        { zeroState with
          has_transmit := cfg.has_transmit
          has_enter := cfg.has_enter
          has_exit := cfg.has_exit
          has_time_provider := cfg.has_time_provider
          write_idx := 0
          pending_idx := 1
          transmit_idx := 2
          transmission_active := false
          timestamp := 0
          channel_count := 0
          initialized := true })

/-- UMSTrace from ums_core.c: rejects an uninitialized engine, a NULL
variable pointer, and a full registry; otherwise stores the pointer in the
next free cell and increments the channel count. -/
def UMSTrace (pVariable : Option Nat) (s : UMSState) : Bool × UMSState :=
  if s.initialized = false then (false, s)
  else
    match pVariable with
    | none => (false, s)
    | some p =>
      if s.channel_count ≥ UMS_MAX_CHANNELS then (false, s)
      else
        (true,
          { s with
            trace_vars := s.trace_vars.set s.channel_count p
            channel_count := s.channel_count + 1 })

/-- The value-copy loop of UMSUpdate: for i = 0 .. count-1,
values[i] = *(trace_vars[i]); cells beyond count keep their old bytes. -/
def fillValues (count : Nat) (tvs : List Nat) (env : Nat → Nat)
    (vals : List Nat) : List Nat :=
  (List.range count).foldl (fun acc i => acc.set i (env (tvs.getD i 0) % 2 ^ 32)) vals

/-- UMSUpdate from ums_core.c.  Fails on an uninitialized engine or an empty
registry.  Otherwise: obtains a timestamp (from the provider oracle, or from
the post-incremented software counter inside a critical section), writes the
sample into the current write slot, then inside a critical section swaps
write with pending and, if no transmission is active, marks one active and
swaps pending with transmit; outside the critical section it hands the new
transmit slot and `ums_sample_size(channel_count)` to the transmit callback
when a transmission was started. -/
def UMSUpdate (providerTime : Nat) (env : Nat → Nat) (s : UMSState) :
    Bool × UMSState × List Event :=
  if s.initialized = false then (false, s, [])
  else if s.channel_count = 0 then (false, s, [])
  else
    let tsv : Nat × UMSState × List Event :=
      if s.has_time_provider then (providerTime % 2 ^ 32, s, [])
      else
        (s.timestamp,
          { s with timestamp := (s.timestamp + 1) % 2 ^ 32 },
          critEnterEvents s ++ critExitEvents s)
    let current_timestamp := tsv.1
    let s1 := tsv.2.1
    let ev1 := tsv.2.2
    let old := s1.buffers.getD s1.write_idx zeroSample
    let sample : Sample :=
      { timestamp := current_timestamp
        channels := s1.channel_count
        values := fillValues s1.channel_count s1.trace_vars env old.values }
    let s2 := { s1 with buffers := s1.buffers.set s1.write_idx sample }
    let s3 := { s2 with write_idx := s2.pending_idx, pending_idx := s2.write_idx }
    if s3.transmission_active = false then
      let s4 :=
        { s3 with
          transmission_active := true
          pending_idx := s3.transmit_idx
          transmit_idx := s3.pending_idx }
      (true, s4,
        ev1 ++ critEnterEvents s2 ++ critExitEvents s2 ++
          [Event.transmit s4.transmit_idx (s4.buffers.getD s4.transmit_idx zeroSample)
            (ums_sample_size s4.channel_count)])
    else
      (true, s3, ev1 ++ critEnterEvents s2 ++ critExitEvents s2)

/-- UMSTransmissionComplete from ums_core.c: a no-op when uninitialized;
otherwise, inside a critical section, if pending and transmit differ they
are swapped (new data is queued) and, outside the critical section, the new
transmit slot is handed to the transmit callback; if they are equal the
transmission_active flag is cleared. -/
def UMSTransmissionComplete (s : UMSState) : UMSState × List Event :=
  if s.initialized = false then (s, [])
  else if s.pending_idx ≠ s.transmit_idx then
    let s1 := { s with pending_idx := s.transmit_idx, transmit_idx := s.pending_idx }
    (s1,
      critEnterEvents s ++ critExitEvents s ++
        [Event.transmit s1.transmit_idx (s1.buffers.getD s1.transmit_idx zeroSample)
          (ums_sample_size s1.channel_count)])
  else
    ({ s with transmission_active := false }, critEnterEvents s ++ critExitEvents s)

/-- UMSDestroy from ums_core.c: enter_critical(); memset the whole state to
zero; exit_critical().  The exit helper tests the exit-callback pointer in
the state AFTER the memset has cleared it, so the recorded trace consults
the zeroed state for the exit event. -/
def UMSDestroy (s : UMSState) : UMSState × List Event :=
  (zeroState, critEnterEvents s ++ critExitEvents zeroState)

/-- UMSGetChannelCount from ums_core.c. -/
def UMSGetChannelCount (s : UMSState) : Nat := s.channel_count

/-- UMSIsInitialized from ums_core.c. -/
def UMSIsInitialized (s : UMSState) : Bool := s.initialized

/-- A minimal valid configuration: transmit callback present, everything
else absent. -/
def cfgMinimal : Config :=
  { has_transmit := true, has_enter := false, has_exit := false, has_time_provider := false }

example : (UMSSetup (some cfgMinimal) zeroState).1 = true := by decide

example : (UMSTrace (some 7) (UMSSetup (some cfgMinimal) zeroState).2).1 = true := by decide

/-- One driver step for the rotation engine: an UMSUpdate call (with its
time-provider oracle and memory environment) or an UMSTransmissionComplete
call. -/
inductive Op where
  | update : Nat → (Nat → Nat) → Op
  | complete : Op

/-- Run a sequence of driver steps, keeping only the engine state. -/
def runOps (ops : List Op) (s : UMSState) : UMSState :=
  ops.foldl
    (fun st op =>
      match op with
      | .update pt env => (UMSUpdate pt env st).2.1
      | .complete => (UMSTransmissionComplete st).1)
    s

/-- The three role indices are pairwise distinct. -/
def Distinct3 (s : UMSState) : Prop :=
  s.write_idx ≠ s.pending_idx ∧ s.write_idx ≠ s.transmit_idx ∧
    s.pending_idx ≠ s.transmit_idx

instance (s : UMSState) : Decidable (Distinct3 s) := by
  unfold Distinct3; infer_instance

/-- UMSUpdate only permutes the role indices, so pairwise distinctness is
preserved. -/
theorem distinct3_update (pt : Nat) (env : Nat → Nat) (s : UMSState)
    (h : Distinct3 s) : Distinct3 (UMSUpdate pt env s).2.1 := by
  obtain ⟨h1, h2, h3⟩ := h
  unfold UMSUpdate
  by_cases hi : s.initialized = false <;>
    by_cases hc : s.channel_count = 0 <;>
      by_cases ht : s.has_time_provider <;>
        by_cases ha : s.transmission_active = false <;>
          simp [hi, hc, ht, ha, Distinct3] <;> omega

/-- UMSTransmissionComplete only permutes the role indices, so pairwise
distinctness is preserved. -/
theorem distinct3_complete (s : UMSState) (h : Distinct3 s) :
    Distinct3 (UMSTransmissionComplete s).1 := by
  obtain ⟨h1, h2, h3⟩ := h
  unfold UMSTransmissionComplete
  by_cases hi : s.initialized = false <;>
    by_cases hp : s.pending_idx = s.transmit_idx <;>
      simp [hi, hp, Distinct3] <;> omega

/-- Distinctness of the role indices is preserved by any driver sequence. -/
theorem distinct3_runOps (ops : List Op) (s : UMSState) (h : Distinct3 s) :
    Distinct3 (runOps ops s) := by
  induction ops generalizing s with
  | nil => exact h
  | cons op rest ih =>
    cases op with
    | update pt env => exact ih _ (distinct3_update pt env s h)
    | complete => exact ih _ (distinct3_complete s h)

/-- A successful UMSSetup yields exactly the freshly initialized state. -/
theorem setup_success (pc : Option Config) (s0 s1 : UMSState)
    (hsetup : UMSSetup pc s0 = (true, s1)) :
    s1.write_idx = 0 ∧ s1.pending_idx = 1 ∧ s1.transmit_idx = 2 ∧
      s1.transmission_active = false ∧ s1.initialized = true ∧
      s1.channel_count = 0 ∧ s1.timestamp = 0 ∧
      s1.buffers = List.replicate 3 zeroSample ∧
      s1.trace_vars = List.replicate UMS_MAX_CHANNELS 0 := by
  match pc with
  | none => simp [UMSSetup] at hsetup
  | some cfg =>
    by_cases h1 : cfg.has_transmit = false
    · simp [UMSSetup, h1] at hsetup
    · by_cases h2 : s0.initialized
      · simp [UMSSetup, h1, h2] at hsetup
      · simp [UMSSetup, h1, h2] at hsetup
        subst hsetup
        simp [zeroState]

/-- A configuration with all four callbacks present except the time
provider. -/
def cfgCritical : Config :=
  { has_transmit := true, has_enter := true, has_exit := true, has_time_provider := false }

/-- Sum of the byte widths of the registered channels: UMSTrace registers
only C float variables, 4 bytes each. -/
def registeredWidthsSum (s : UMSState) : Nat := s.channel_count * 4

/-- C1: after any successful UMSSetup, every sequence of UMSUpdate and
UMSTransmissionComplete calls keeps the three role indices write_idx,
pending_idx and transmit_idx pairwise distinct.  Every prefix of a call
sequence is itself a call sequence, so this statement covers the instant
before and after every individual call: the role-to-slot mapping is a
bijection over the three physical slots throughout. -/
theorem C1_roles_distinct (pc : Option Config) (s0 s1 : UMSState)
    (hsetup : UMSSetup pc s0 = (true, s1)) (ops : List Op) :
    Distinct3 (runOps ops s1) := by
  obtain ⟨hw, hp, ht, -⟩ := setup_success pc s0 s1 hsetup
  exact distinct3_runOps ops s1 (by simp [Distinct3, hw, hp, ht])

/-- Witness for C1 at a concrete setup and a concrete driver sequence. -/
theorem C1_roles_distinct_witness :
    UMSSetup (some cfgMinimal) zeroState =
      (true, (UMSSetup (some cfgMinimal) zeroState).2) ∧
    Distinct3 (runOps [Op.update 0 (fun x => x), Op.complete, Op.complete]
      (UMSSetup (some cfgMinimal) zeroState).2) :=
  ⟨by decide,
    C1_roles_distinct (some cfgMinimal) zeroState _ (by decide)
      [Op.update 0 (fun x => x), Op.complete, Op.complete]⟩

/-- C7: UMSUpdate called before initialization, or with zero registered
channels, returns failure with the whole state untouched (in particular the
role indices, the transmission_active flag and every buffer slot) and
invokes no callback; UMSTransmissionComplete on an uninitialized engine is
a no-op that changes no state and invokes no callback. -/
theorem C7_reject_untouched (s : UMSState) (pt : Nat) (env : Nat → Nat) :
    (s.initialized = false →
      UMSUpdate pt env s = (false, s, []) ∧
        UMSTransmissionComplete s = (s, [])) ∧
    (s.channel_count = 0 → UMSUpdate pt env s = (false, s, [])) := by
  refine ⟨fun h => ⟨?_, ?_⟩, fun h => ?_⟩
  · simp [UMSUpdate, h]
  · simp [UMSTransmissionComplete, h]
  · by_cases hi : s.initialized = false <;> simp [UMSUpdate, h, hi]

/-- Witness for C7 on the uninitialized zero state. -/
theorem C7_reject_untouched_witness :
    UMSUpdate 0 (fun x => x) zeroState = (false, zeroState, []) ∧
    UMSTransmissionComplete zeroState = (zeroState, []) :=
  (C7_reject_untouched zeroState 0 (fun x => x)).1 rfl

/-- C5 fails as stated: a UMSSetup call rejected because the engine is
already initialized leaves the engine initialized, and a subsequent
UMSTrace succeeds instead of failing with a not-initialized error. -/
theorem C5_counterexample :
    (UMSSetup (some cfgMinimal) zeroState).1 = true ∧
    (UMSSetup (some cfgMinimal) (UMSSetup (some cfgMinimal) zeroState).2).1 = false ∧
    UMSIsInitialized
      (UMSSetup (some cfgMinimal) (UMSSetup (some cfgMinimal) zeroState).2).2 = true ∧
    (UMSTrace (some 5)
      (UMSSetup (some cfgMinimal) (UMSSetup (some cfgMinimal) zeroState).2).2).1 = true := by
  decide

/-- C5 amended: on a UMSSetup failure while the engine is uninitialized
(null configuration or absent transmit callback) the state is unchanged,
hence still uninitialized, and every subsequent operation fails fast
without touching the state — UMSTrace and UMSUpdate return failure,
UMSTransmissionComplete is a no-op — until a UMSSetup with a transmit
callback succeeds.  (A UMSSetup rejected because the engine is already
initialized instead leaves it initialized and operational.) -/
theorem C5_setup_failure_fail_fast (s : UMSState) (pc : Option Config)
    (h : s.initialized = false) :
    ((UMSSetup pc s).1 = false → (UMSSetup pc s).2 = s) ∧
    (∀ p, UMSTrace p s = (false, s)) ∧
    (∀ pt env, UMSUpdate pt env s = (false, s, [])) ∧
    UMSTransmissionComplete s = (s, []) ∧
    (∀ cfg : Config, cfg.has_transmit = true → (UMSSetup (some cfg) s).1 = true) := by
  refine ⟨?_, fun p => ?_, fun pt env => ?_, ?_, fun cfg hc => ?_⟩
  · match pc with
    | none => intro; rfl
    | some cfg =>
      by_cases h1 : cfg.has_transmit = false <;> simp [UMSSetup, h1, h]
  · match p with
    | none => simp [UMSTrace, h]
    | some q => simp [UMSTrace, h]
  · simp [UMSUpdate, h]
  · simp [UMSTransmissionComplete, h]
  · simp [UMSSetup, hc, h]

/-- Witness for C5 amended on the zero state with a null configuration. -/
theorem C5_setup_failure_fail_fast_witness :
    (UMSSetup none zeroState).2 = zeroState ∧
    UMSTrace (some 3) zeroState = (false, zeroState) ∧
    (UMSSetup (some cfgMinimal) zeroState).1 = true :=
  ⟨(C5_setup_failure_fail_fast zeroState none rfl).1 rfl,
    (C5_setup_failure_fail_fast zeroState none rfl).2.1 (some 3),
    (C5_setup_failure_fail_fast zeroState none rfl).2.2.2.2 cfgMinimal rfl⟩

/-- C6 exhibits a code bug: with non-null enter and exit callbacks
configured, UMSDestroy invokes the enter callback once, but the memset
zeroes the exit-callback pointer before the exit_critical helper reads it,
so the exit callback is never invoked: the callback trace of UMSDestroy on
an engine set up with cfgCritical is exactly one enterCrit event and no
exitCrit event, leaving the exclusion region entered but never exited. -/
theorem C6_destroy_missing_exit :
    (UMSDestroy (UMSSetup (some cfgCritical) zeroState).2).2 = [Event.enterCrit] := by
  decide

/-- C3 fails as stated: with one registered channel the transmit callback
receives byte length 9 = 4 (timestamp) + 1 (channel-count byte) + 4 (one
float), not 8 = timestamp width plus the sum of the registered channel
widths. -/
theorem C3_counterexample :
    (UMSUpdate 0 (fun x => x)
      (UMSTrace (some 100) (UMSSetup (some cfgMinimal) zeroState).2).2).2.2 =
      [Event.transmit 0
        { timestamp := 0, channels := 1, values := [100, 0, 0, 0, 0, 0] } 9] ∧
    (9 : Nat) ≠ 4 + 1 * 4 := by
  decide

/-- C3 amended: every byte length handed to the transmit callback, whether
by UMSUpdate or by UMSTransmissionComplete, equals exactly 4 (timestamp
width) + 1 (the channel-count byte of ums_sample_t) + the sum of the
registered channels type widths. -/
theorem C3_frame_size_amended (s : UMSState) (pt : Nat) (env : Nat → Nat)
    (i : Nat) (smp : Sample) (sz : Nat) :
    (Event.transmit i smp sz ∈ (UMSUpdate pt env s).2.2 →
      sz = 4 + 1 + registeredWidthsSum s) ∧
    (Event.transmit i smp sz ∈ (UMSTransmissionComplete s).2 →
      sz = 4 + 1 + registeredWidthsSum s) := by
  constructor
  · intro hmem
    unfold UMSUpdate at hmem
    by_cases hi : s.initialized = false <;>
      by_cases hc : s.channel_count = 0 <;>
        by_cases ht : s.has_time_provider <;>
          by_cases ha : s.transmission_active = false <;>
            simp [hi, hc, ht, ha, critEnterEvents, critExitEvents,
              ums_sample_size] at hmem
    all_goals
      obtain ⟨-, -, h3⟩ := hmem
    all_goals
      simp [registeredWidthsSum]
    all_goals
      omega
  · intro hmem
    unfold UMSTransmissionComplete at hmem
    by_cases hi : s.initialized = false <;>
      by_cases hp : s.pending_idx = s.transmit_idx <;>
        simp [hi, hp, critEnterEvents, critExitEvents, ums_sample_size] at hmem
    all_goals
      obtain ⟨-, -, h3⟩ := hmem
    all_goals
      simp [registeredWidthsSum]
    all_goals
      omega

/-- Witness for C3 amended: the transmit event of the first update after
registering one channel carries byte length 9 = 4 + 1 + 4. -/
theorem C3_frame_size_amended_witness :
    (9 : Nat) =
      4 + 1 + registeredWidthsSum
        (UMSTrace (some 100) (UMSSetup (some cfgMinimal) zeroState).2).2 :=
  (C3_frame_size_amended
    (UMSTrace (some 100) (UMSSetup (some cfgMinimal) zeroState).2).2 0 (fun x => x) 0
    { timestamp := 0, channels := 1, values := [100, 0, 0, 0, 0, 0] } 9).1 (by decide)

/-- C9 fails as stated: UMSDestroy returns void, so its second consecutive
call cannot report a not-initialized signal to its caller.  Concretely,
after a setup with cfgMinimal, the complete observable output of the second
UMSDestroy (resulting state plus callback events) is identical to that of
the first call on the still-initialized engine: the caller receives no
indication that the engine was already uninitialized. -/
theorem C9_counterexample :
    UMSDestroy (UMSDestroy (UMSSetup (some cfgMinimal) zeroState).2).1 =
      UMSDestroy (UMSSetup (some cfgMinimal) zeroState).2 := by
  decide

/-- C9 amended: UMSDestroy is always safe to call and always yields the
fully zeroed, uninitialized state; a second consecutive call leaves the
state unchanged from the first call's result.  UMSDestroy returns void, so
the second call reports nothing to its caller; the not-initialized
condition is observable only through UMSIsInitialized, which returns
false. -/
theorem C9_destroy_idempotent (s : UMSState) :
    (UMSDestroy s).1 = zeroState ∧
    (UMSDestroy (UMSDestroy s).1).1 = (UMSDestroy s).1 ∧
    UMSIsInitialized (UMSDestroy s).1 = false := by
  simp [UMSDestroy, UMSIsInitialized, zeroState]

/-- Witness for C9 amended on a freshly set-up engine. -/
theorem C9_destroy_idempotent_witness :
    (UMSDestroy (UMSSetup (some cfgCritical) zeroState).2).1 = zeroState :=
  (C9_destroy_idempotent (UMSSetup (some cfgCritical) zeroState).2).1

/-- A rejected UMSUpdate (engine uninitialized or empty registry) returns
failure with the state untouched and no events. -/
theorem update_reject (pt : Nat) (env : Nat → Nat) (s : UMSState)
    (h : s.initialized = false ∨ s.channel_count = 0) :
    UMSUpdate pt env s = (false, s, []) := by
  rcases h with h | h
  · simp [UMSUpdate, h]
  · by_cases hi : s.initialized = false <;> simp [UMSUpdate, h, hi]

/-- UMSUpdate never changes the configuration flags, the registry, the
initialized flag or the buffer-array length. -/
theorem update_preserves (pt : Nat) (env : Nat → Nat) (s : UMSState) :
    (UMSUpdate pt env s).2.1.initialized = s.initialized ∧
    (UMSUpdate pt env s).2.1.channel_count = s.channel_count ∧
    (UMSUpdate pt env s).2.1.has_time_provider = s.has_time_provider ∧
    (UMSUpdate pt env s).2.1.trace_vars = s.trace_vars ∧
    (UMSUpdate pt env s).2.1.buffers.length = s.buffers.length := by
  unfold UMSUpdate
  by_cases hi : s.initialized = false <;>
    by_cases hc : s.channel_count = 0 <;>
      by_cases ht : s.has_time_provider <;>
        by_cases ha : s.transmission_active = false <;>
          simp [hi, hc, ht, ha]

/-- UMSTransmissionComplete never changes the timestamp counter, the
configuration flags, the registry, the initialized flag, or the buffer
array. -/
theorem complete_preserves (s : UMSState) :
    (UMSTransmissionComplete s).1.timestamp = s.timestamp ∧
    (UMSTransmissionComplete s).1.has_time_provider = s.has_time_provider ∧
    (UMSTransmissionComplete s).1.channel_count = s.channel_count ∧
    (UMSTransmissionComplete s).1.initialized = s.initialized ∧
    (UMSTransmissionComplete s).1.trace_vars = s.trace_vars ∧
    (UMSTransmissionComplete s).1.buffers = s.buffers := by
  unfold UMSTransmissionComplete
  by_cases hi : s.initialized = false <;>
    by_cases hp : s.pending_idx = s.transmit_idx <;> simp [hi, hp]

/-- All three role indices address one of the three physical slots. -/
def GoodIdx (s : UMSState) : Prop :=
  s.buffers.length = 3 ∧ s.write_idx < 3 ∧ s.pending_idx < 3 ∧ s.transmit_idx < 3

/-- UMSUpdate only permutes the role indices, so the slot bounds are
preserved. -/
theorem goodIdx_update (pt : Nat) (env : Nat → Nat) (s : UMSState)
    (h : GoodIdx s) : GoodIdx (UMSUpdate pt env s).2.1 := by
  obtain ⟨h0, h1, h2, h3⟩ := h
  unfold UMSUpdate
  by_cases hi : s.initialized = false <;>
    by_cases hc : s.channel_count = 0 <;>
      by_cases ht : s.has_time_provider <;>
        by_cases ha : s.transmission_active = false <;>
          simp [hi, hc, ht, ha, GoodIdx] <;> omega

/-- UMSTransmissionComplete only permutes the role indices, so the slot
bounds are preserved. -/
theorem goodIdx_complete (s : UMSState) (h : GoodIdx s) :
    GoodIdx (UMSTransmissionComplete s).1 := by
  obtain ⟨h0, h1, h2, h3⟩ := h
  unfold UMSTransmissionComplete
  by_cases hi : s.initialized = false <;>
    by_cases hp : s.pending_idx = s.transmit_idx <;>
      simp [hi, hp, GoodIdx] <;> omega

/-- Unfolding the value-copy loop one iteration at the top. -/
theorem fillValues_succ (c : Nat) (tvs : List Nat) (env : Nat → Nat)
    (vals : List Nat) :
    fillValues (c + 1) tvs env vals =
      (fillValues c tvs env vals).set c (env (tvs.getD c 0) % 2 ^ 32) := by
  simp [fillValues, List.range_succ]

/-- The value-copy loop preserves the length of the values array. -/
theorem fillValues_length (c : Nat) (tvs : List Nat) (env : Nat → Nat)
    (vals : List Nat) :
    (fillValues c tvs env vals).length = vals.length := by
  induction c with
  | zero => simp [fillValues]
  | succ n ih => simp [fillValues_succ, ih]

/-- Cell i of the values array after the copy loop holds the traced
variable value, for every i below the loop bound and the array length. -/
theorem fillValues_getElem? (c : Nat) (tvs : List Nat) (env : Nat → Nat)
    (vals : List Nat) (i : Nat) (h1 : i < c) (h2 : i < vals.length) :
    (fillValues c tvs env vals)[i]? = some (env (tvs.getD i 0) % 2 ^ 32) := by
  induction c with
  | zero => omega
  | succ n ih =>
    rw [fillValues_succ]
    by_cases hin : i = n
    · subst hin
      rw [List.getElem?_set_self]
      rw [fillValues_length]
      omega
    · rw [List.getElem?_set_ne (by omega)]
      exact ih (by omega)

/-- One UMSTrace call advances the channel count by one exactly when it
succeeds. -/
theorem trace_count_step (p : Option Nat) (s : UMSState) :
    (UMSTrace p s).2.channel_count =
      s.channel_count + (if (UMSTrace p s).1 then 1 else 0) := by
  unfold UMSTrace
  by_cases hi : s.initialized = false
  · simp [hi]
  · match p with
    | none => simp [hi]
    | some q =>
      by_cases hc : s.channel_count ≥ UMS_MAX_CHANNELS <;> simp [hi, hc]

/-- The registration-step function used to drive UMSTrace sequences while
counting successful calls. -/
def traceStep (acc : UMSState × Nat) (p : Option Nat) : UMSState × Nat :=
  ((UMSTrace p acc.1).2, acc.2 + if (UMSTrace p acc.1).1 then 1 else 0)

/-- Run a sequence of UMSTrace calls from a state, counting the successful
ones. -/
def runTraces (args : List (Option Nat)) (s : UMSState) : UMSState × Nat :=
  args.foldl traceStep (s, 0)

/-- Invariant of the registration fold: the channel count grows by exactly
the number of successful calls. -/
theorem runTraces_invariant (args : List (Option Nat)) :
    ∀ (s : UMSState) (k : Nat),
      (args.foldl traceStep (s, k)).1.channel_count + k =
        (args.foldl traceStep (s, k)).2 + s.channel_count := by
  induction args with
  | nil => intro s k; simp; omega
  | cons p rest ih =>
    intro s k
    simp only [List.foldl_cons]
    have hstep := trace_count_step p s
    have := ih (UMSTrace p s).2 (k + if (UMSTrace p s).1 then 1 else 0)
    simp only [traceStep]
    omega

/-- C8: after a successful UMSSetup, for every sequence of UMSTrace calls
the channel count reported by UMSGetChannelCount equals the number of
successful registration calls; and whenever the count has reached
UMS_MAX_CHANNELS, the next UMSTrace call fails (the engine reports the
failure through its boolean return, its only error channel) with the whole
state, in particular the count, unchanged. -/
theorem C8_registry_count (pc : Option Config) (s0 s1 : UMSState)
    (hsetup : UMSSetup pc s0 = (true, s1)) (args : List (Option Nat)) :
    UMSGetChannelCount (runTraces args s1).1 = (runTraces args s1).2 ∧
    (∀ p, UMSGetChannelCount (runTraces args s1).1 = UMS_MAX_CHANNELS →
      UMSTrace p (runTraces args s1).1 = (false, (runTraces args s1).1)) := by
  obtain ⟨-, -, -, -, -, hcnt, -⟩ := setup_success pc s0 s1 hsetup
  constructor
  · have := runTraces_invariant args s1 0
    simp only [UMSGetChannelCount, runTraces]
    omega
  · intro p hfull
    simp only [UMSGetChannelCount] at hfull
    unfold UMSTrace
    by_cases hi : (runTraces args s1).1.initialized = false
    · simp [hi]
    · match p with
      | none => simp [hi]
      | some q => simp [hi, hfull]

/-- Witness for C8: seven registration attempts after setup; six succeed,
the seventh fails at capacity, and the count equals the successes. -/
theorem C8_registry_count_witness :
    UMSGetChannelCount
        (runTraces [some 1, some 2, some 3, some 4, some 5, some 6, some 7]
          (UMSSetup (some cfgMinimal) zeroState).2).1 =
      (runTraces [some 1, some 2, some 3, some 4, some 5, some 6, some 7]
        (UMSSetup (some cfgMinimal) zeroState).2).2 ∧
    UMSTrace (some 8)
        (runTraces [some 1, some 2, some 3, some 4, some 5, some 6, some 7]
          (UMSSetup (some cfgMinimal) zeroState).2).1 =
      (false,
        (runTraces [some 1, some 2, some 3, some 4, some 5, some 6, some 7]
          (UMSSetup (some cfgMinimal) zeroState).2).1) :=
  ⟨(C8_registry_count (some cfgMinimal) zeroState _ (by decide)
      [some 1, some 2, some 3, some 4, some 5, some 6, some 7]).1,
    (C8_registry_count (some cfgMinimal) zeroState _ (by decide)
      [some 1, some 2, some 3, some 4, some 5, some 6, some 7]).2 (some 8) (by decide)⟩

/-- A successful UMSUpdate without a time provider stamps the written
sample with the pre-increment counter value and advances the counter by
one modulo 2^32. -/
theorem update_writes_counter (pt : Nat) (env : Nat → Nat) (s : UMSState)
    (hi : s.initialized = true) (hc : s.channel_count ≠ 0)
    (ht : s.has_time_provider = false)
    (hb : s.buffers.length = 3) (hw : s.write_idx < 3) :
    (UMSUpdate pt env s).1 = true ∧
    ((UMSUpdate pt env s).2.1.buffers.getD s.write_idx zeroSample).timestamp =
      s.timestamp ∧
    (UMSUpdate pt env s).2.1.timestamp = (s.timestamp + 1) % 2 ^ 32 := by
  have hlt : s.write_idx < s.buffers.length := by omega
  unfold UMSUpdate
  by_cases ha : s.transmission_active = false <;>
    simp [hi, hc, ht, ha, List.getD_eq_getElem?_getD, List.getElem?_set_self hlt]

/-- The drive-and-record step: run one driver op and append the timestamp
of the sample each successful UMSUpdate wrote into its write slot. -/
def stampStep (acc : UMSState × List Nat) (op : Op) : UMSState × List Nat :=
  match op with
  | .update pt env =>
    ((UMSUpdate pt env acc.1).2.1,
      acc.2 ++
        (if (UMSUpdate pt env acc.1).1 then
          [((UMSUpdate pt env acc.1).2.1.buffers.getD acc.1.write_idx
              zeroSample).timestamp]
        else []))
  | .complete => ((UMSTransmissionComplete acc.1).1, acc.2)

/-- Run a driver sequence recording, for each successful UMSUpdate, the
timestamp of the sample it produced. -/
def runStamped (ops : List Op) (s : UMSState) : UMSState × List Nat :=
  ops.foldl stampStep (s, [])

/-- Invariant of the drive-and-record fold in the software-counter
configuration: the counter equals the number of samples produced so far
(mod 2^32) and the recorded timestamps are 0, 1, 2, ... (mod 2^32). -/
def StampInv (x : UMSState × List Nat) : Prop :=
  x.1.has_time_provider = false ∧ x.1.buffers.length = 3 ∧
    x.1.write_idx < 3 ∧ x.1.pending_idx < 3 ∧ x.1.transmit_idx < 3 ∧
    x.1.timestamp = x.2.length % 2 ^ 32 ∧
    x.2 = (List.range x.2.length).map (fun i => i % 2 ^ 32)

/-- Each driver step preserves the counter-and-record invariant. -/
theorem stampStep_invariant (x : UMSState × List Nat) (op : Op)
    (h : StampInv x) : StampInv (stampStep x op) := by
  obtain ⟨hprov, hb, hw, hp, ht, hts, hrec⟩ := h
  cases op with
  | complete =>
    have hpres := complete_preserves x.1
    have hidx := goodIdx_complete x.1 ⟨hb, hw, hp, ht⟩
    obtain ⟨g0, g1, g2, g3⟩ := hidx
    exact ⟨by rw [stampStep]; rw [hpres.2.1]; exact hprov, g0, g1, g2, g3,
      by rw [stampStep]; rw [hpres.1]; exact hts, hrec⟩
  | update pt env =>
    by_cases hok : x.1.initialized = false ∨ x.1.channel_count = 0
    · have := update_reject pt env x.1 hok
      refine ⟨?_, ?_, ?_, ?_, ?_, ?_, ?_⟩ <;> simp [stampStep, this] <;> assumption
    · push_neg at hok
      obtain ⟨hi, hc⟩ := hok
      simp only [ne_eq, Bool.not_eq_false] at hi
      have hwrite := update_writes_counter pt env x.1 hi hc hprov hb hw
      have hpres := update_preserves pt env x.1
      have hidx := goodIdx_update pt env x.1 ⟨hb, hw, hp, ht⟩
      obtain ⟨g0, g1, g2, g3⟩ := hidx
      refine ⟨?_, g0, g1, g2, g3, ?_, ?_⟩
      · rw [stampStep]; rw [hpres.2.2.1]; exact hprov
      · rw [stampStep]
        simp only [hwrite.1, if_true, hwrite.2.1, hwrite.2.2]
        simp [hts, Nat.add_mod_left]
      · rw [stampStep]
        simp only [hwrite.1, if_true, hwrite.2.1]
        rw [hts, hrec]
        have : (List.range (x.2.length + 1)).map (fun i => i % 2 ^ 32) =
            (List.range x.2.length).map (fun i => i % 2 ^ 32) ++
              [x.2.length % 2 ^ 32] := by
          rw [List.range_succ, List.map_append, List.map_cons, List.map_nil]
        simp only [List.length_append, List.length_map, List.length_range,
          List.length_cons, List.length_nil]
        rw [hrec] at this
        simp only [List.length_map, List.length_range] at this
        exact this.symm ▸ rfl

/-- UMSTrace touches only the registry: buffers, role indices, flags and
the timestamp counter are unchanged. -/
theorem trace_preserves (p : Option Nat) (s : UMSState) :
    (UMSTrace p s).2.buffers = s.buffers ∧
    (UMSTrace p s).2.write_idx = s.write_idx ∧
    (UMSTrace p s).2.pending_idx = s.pending_idx ∧
    (UMSTrace p s).2.transmit_idx = s.transmit_idx ∧
    (UMSTrace p s).2.timestamp = s.timestamp ∧
    (UMSTrace p s).2.has_time_provider = s.has_time_provider ∧
    (UMSTrace p s).2.transmission_active = s.transmission_active ∧
    (UMSTrace p s).2.initialized = s.initialized := by
  unfold UMSTrace
  by_cases hi : s.initialized = false
  · simp [hi]
  · match p with
    | none => simp [hi]
    | some q =>
      by_cases hc : s.channel_count ≥ UMS_MAX_CHANNELS <;> simp [hi, hc]

/-- A whole UMSTrace sequence touches only the registry. -/
theorem runTraces_preserves (args : List (Option Nat)) :
    ∀ (s : UMSState) (k : Nat),
      (args.foldl traceStep (s, k)).1.buffers = s.buffers ∧
      (args.foldl traceStep (s, k)).1.write_idx = s.write_idx ∧
      (args.foldl traceStep (s, k)).1.pending_idx = s.pending_idx ∧
      (args.foldl traceStep (s, k)).1.transmit_idx = s.transmit_idx ∧
      (args.foldl traceStep (s, k)).1.timestamp = s.timestamp ∧
      (args.foldl traceStep (s, k)).1.has_time_provider = s.has_time_provider ∧
      (args.foldl traceStep (s, k)).1.transmission_active = s.transmission_active ∧
      (args.foldl traceStep (s, k)).1.initialized = s.initialized := by
  induction args with
  | nil => intro s k; simp
  | cons p rest ih =>
    intro s k
    simp only [List.foldl_cons, traceStep]
    have hstep := trace_preserves p s
    have hrest := ih (UMSTrace p s).2 (k + if (UMSTrace p s).1 then 1 else 0)
    exact ⟨hrest.1.trans hstep.1, hrest.2.1.trans hstep.2.1,
      hrest.2.2.1.trans hstep.2.2.1, hrest.2.2.2.1.trans hstep.2.2.2.1,
      hrest.2.2.2.2.1.trans hstep.2.2.2.2.1,
      hrest.2.2.2.2.2.1.trans hstep.2.2.2.2.2.1,
      hrest.2.2.2.2.2.2.1.trans hstep.2.2.2.2.2.2.1,
      hrest.2.2.2.2.2.2.2.trans hstep.2.2.2.2.2.2.2⟩

/-- The counter-and-record invariant propagates along any driver
sequence. -/
theorem runStamped_invariant (ops : List Op) (x : UMSState × List Nat)
    (h : StampInv x) : StampInv (ops.foldl stampStep x) := by
  induction ops generalizing x with
  | nil => exact h
  | cons op rest ih => exact ih _ (stampStep_invariant x op h)

/-- C10: with no time provider configured, the sample produced by the n-th
successful UMSUpdate since setup carries timestamp n-1 (stated with the
0-based index i = n-1, for i below the uint32 counter capacity 2^32): the
software counter starts at zero at setup, each frame carries the counter's
pre-increment value, and the counter advances exactly once per successful
UMSUpdate and never on a rejected call — after any driver sequence it
equals the number of successful updates modulo 2^32. -/
theorem C10_counter_timestamps (pc : Option Config) (s0 s1 : UMSState)
    (hsetup : UMSSetup pc s0 = (true, s1))
    (hprov : s1.has_time_provider = false)
    (args : List (Option Nat)) (ops : List Op) :
    (∀ i, i < (runStamped ops (runTraces args s1).1).2.length → i < 2 ^ 32 →
      (runStamped ops (runTraces args s1).1).2.getD i 0 = i) ∧
    (runStamped ops (runTraces args s1).1).1.timestamp =
      (runStamped ops (runTraces args s1).1).2.length % 2 ^ 32 := by
  obtain ⟨hw, hp, ht, -, -, -, hts, hbuf, -⟩ := setup_success pc s0 s1 hsetup
  have hpr := runTraces_preserves args s1 0
  have hinv : StampInv ((runTraces args s1).1, []) := by
    refine ⟨?_, ?_, ?_, ?_, ?_, ?_, ?_⟩
    · rw [runTraces, hpr.2.2.2.2.2.1]; exact hprov
    · rw [runTraces, hpr.1, hbuf]; rfl
    · rw [runTraces, hpr.2.1, hw]; omega
    · rw [runTraces, hpr.2.2.1, hp]; omega
    · rw [runTraces, hpr.2.2.2.1, ht]; omega
    · rw [runTraces, hpr.2.2.2.2.1, hts]; rfl
    · rfl
  have hfin : StampInv (runStamped ops (runTraces args s1).1) :=
    runStamped_invariant ops ((runTraces args s1).1, []) hinv
  obtain ⟨-, -, -, -, -, hts2, hrec⟩ := hfin
  refine ⟨?_, hts2⟩
  intro i hlen hcap
  conv_lhs => rw [hrec]
  rw [List.getD_eq_getElem?_getD, List.getElem?_map, List.getElem?_range hlen]
  simp [Nat.mod_eq_of_lt hcap]
  omega

/-- Witness for C10: one channel registered, three successful updates with
a completion in between; the third sample (index 2) carries timestamp 2. -/
theorem C10_counter_timestamps_witness :
    (runStamped
        [Op.update 0 (fun x => x), Op.update 0 (fun x => x), Op.complete,
          Op.update 0 (fun x => x)]
        (runTraces [some 50] (UMSSetup (some cfgMinimal) zeroState).2).1).2.getD 2 0 = 2 :=
  (C10_counter_timestamps (some cfgMinimal) zeroState _ (by decide) (by decide)
      [some 50]
      [Op.update 0 (fun x => x), Op.update 0 (fun x => x), Op.complete,
        Op.update 0 (fun x => x)]).1 2 (by decide) (by decide)

/-- Little-endian byte decomposition of a 32-bit value: the four bytes a C
float occupies inside the packed ums_sample_t on the wire. -/
def le32 (v : Nat) : List Nat :=
  [v % 256, v / 256 % 256, v / 256 ^ 2 % 256, v / 256 ^ 3 % 256]

/-- Byte serialization of a list of 32-bit values, in order. -/
def payloadBytes : List Nat → List Nat
  | [] => []
  | v :: vs => le32 v ++ payloadBytes vs

/-- The payload region of the transmitted frame of a sample: the bytes of
its first channels float values in registration order — the region of the
packed ums_sample_t after the timestamp and channel-count header, whose
length is the sum of the registered channel widths. -/
def samplePayloadBytes (smp : Sample) : List Nat :=
  payloadBytes (smp.values.take smp.channels)

/-- Block i of the byte serialization — the four bytes starting at offset
4*i, the cumulative width of the preceding values — is exactly the byte
image of value i. -/
theorem payloadBytes_block (l : List Nat) (i : Nat) (h : i < l.length) :
    ((payloadBytes l).drop (4 * i)).take 4 = le32 (l.getD i 0) := by
  induction l generalizing i with
  | nil => simp at h
  | cons v vs ih =>
    cases i with
    | zero => simp [payloadBytes, le32]
    | succ j =>
      have hd : (payloadBytes (v :: vs)).drop (4 * (j + 1)) =
          (payloadBytes vs).drop (4 * j) := by
        have h4 : 4 * (j + 1) = 4 + 4 * j := by ring
        rw [h4, payloadBytes, ← List.drop_drop]
        simp [le32]
      rw [hd, List.getD_cons_succ]
      exact ih j (by simpa using h)

/-- When no transmission is active, a successful UMSUpdate hands the slot
it just filled to the transmit callback: the event carries the old write
index, the freshly assembled sample and the exact frame size. -/
theorem update_transmits (pt : Nat) (env : Nat → Nat) (s : UMSState)
    (hi2 : s.initialized = true) (hc : s.channel_count ≠ 0)
    (ha : s.transmission_active = false)
    (hb : s.buffers.length = 3) (hw : s.write_idx < 3) :
    ∃ ts, Event.transmit s.write_idx
      { timestamp := ts
        channels := s.channel_count
        values := fillValues s.channel_count s.trace_vars env
          (s.buffers.getD s.write_idx zeroSample).values }
      (ums_sample_size s.channel_count) ∈ (UMSUpdate pt env s).2.2 := by
  have hlt : s.write_idx < s.buffers.length := by omega
  by_cases hp : s.has_time_provider
  · refine ⟨pt % 2 ^ 32, ?_⟩
    unfold UMSUpdate
    simp [hi2, hc, hp, ha, List.getD_eq_getElem?_getD, List.getElem?_set_self hlt]
  · refine ⟨s.timestamp, ?_⟩
    unfold UMSUpdate
    simp [hi2, hc, hp, ha, List.getD_eq_getElem?_getD, List.getElem?_set_self hlt]

/-- The payload of a freshly assembled sample (channel count c, values
filled from the traced variables by the copy loop): byte block i, at offset
4*i, is exactly the byte image of traced value i. -/
theorem fill_payload_block (c : Nat) (tvs : List Nat) (env : Nat → Nat)
    (vals : List Nat) (ts i : Nat)
    (hv : vals.length = UMS_MAX_CHANNELS)
    (hc6 : c ≤ UMS_MAX_CHANNELS) (hic : i < c) :
    ((samplePayloadBytes
        { timestamp := ts, channels := c, values := fillValues c tvs env vals }).drop
      (4 * i)).take 4 = le32 (env (tvs.getD i 0) % 2 ^ 32) := by
  have hlenfill : (fillValues c tvs env vals).length = UMS_MAX_CHANNELS := by
    rw [fillValues_length, hv]
  have hLlen : ((fillValues c tvs env vals).take c).length = c := by
    rw [List.length_take, hlenfill]
    omega
  have hblock := payloadBytes_block ((fillValues c tvs env vals).take c) i (by omega)
  rw [samplePayloadBytes] at *
  rw [hblock]
  congr 1
  rw [List.getD_eq_getElem?_getD, List.getElem?_take_of_lt hic,
    fillValues_getElem? c tvs env vals i hic (by omega)]
  rfl

/-- The transmit-callback invocations contained in an event trace, as
(slot index, sample contents, byte length) triples in order. -/
def transmits (evs : List Event) : List (Nat × Sample × Nat) :=
  evs.filterMap fun e =>
    match e with
    | .transmit i smp sz => some (i, smp, sz)
    | _ => none

/-- The first c cells after the copy loop are exactly the current traced
values, in registration order. -/
theorem fillValues_take (c : Nat) (tvs : List Nat) (env : Nat → Nat)
    (vals : List Nat) (hc : c ≤ vals.length) :
    (fillValues c tvs env vals).take c =
      (List.range c).map (fun i => env (tvs.getD i 0) % 2 ^ 32) := by
  apply List.ext_getElem?
  intro n
  by_cases hn : n < c
  · rw [List.getElem?_take_of_lt hn,
      fillValues_getElem? c tvs env vals n hn (by omega),
      List.getElem?_map, List.getElem?_range hn]
    simp
  · rw [List.getElem?_eq_none, List.getElem?_eq_none]
    · simp
      omega
    · simp [List.length_take, fillValues_length]
      omega

/-- A successful UMSUpdate that starts a transmission reports exactly one
transmit invocation: the old write slot, the freshly assembled sample, and
the exact frame size. -/
theorem update_start_transmits (pt : Nat) (env : Nat → Nat) (s : UMSState)
    (hi : s.initialized = true) (hc : s.channel_count ≠ 0)
    (ha : s.transmission_active = false)
    (hlt : s.write_idx < s.buffers.length) :
    transmits (UMSUpdate pt env s).2.2 =
      [(s.write_idx,
        { timestamp := if s.has_time_provider then pt % 2 ^ 32 else s.timestamp
          channels := s.channel_count
          values := fillValues s.channel_count s.trace_vars env
            (s.buffers.getD s.write_idx zeroSample).values },
        ums_sample_size s.channel_count)] := by
  unfold UMSUpdate
  by_cases hp : s.has_time_provider <;>
    by_cases he : s.has_enter <;>
      by_cases hx : s.has_exit <;>
        simp [hi, hc, ha, hp, he, hx, transmits, critEnterEvents, critExitEvents,
          List.getD_eq_getElem?_getD, List.getElem?_set_self hlt]

/-- The successor state of a transmission-starting UMSUpdate: the fresh
sample lands in the old write slot, write takes the old pending slot,
pending takes the old transmit slot, transmit takes the old write slot,
and a transmission is now active. -/
theorem update_start_state (pt : Nat) (env : Nat → Nat) (s : UMSState)
    (hi : s.initialized = true) (hc : s.channel_count ≠ 0)
    (ha : s.transmission_active = false) :
    (UMSUpdate pt env s).1 = true ∧
    (UMSUpdate pt env s).2.1 =
      { s with
        timestamp := if s.has_time_provider then s.timestamp
          else (s.timestamp + 1) % 2 ^ 32
        buffers := s.buffers.set s.write_idx
          { timestamp := if s.has_time_provider then pt % 2 ^ 32 else s.timestamp
            channels := s.channel_count
            values := fillValues s.channel_count s.trace_vars env
              (s.buffers.getD s.write_idx zeroSample).values }
        write_idx := s.pending_idx
        pending_idx := s.transmit_idx
        transmit_idx := s.write_idx
        transmission_active := true } := by
  unfold UMSUpdate
  by_cases hp : s.has_time_provider <;> simp [hi, hc, ha, hp]

/-- A successful UMSUpdate while a transmission is active queues the fresh
sample without invoking the transmit callback: write and pending swap and
nothing else moves. -/
theorem update_busy_state (pt : Nat) (env : Nat → Nat) (s : UMSState)
    (hi : s.initialized = true) (hc : s.channel_count ≠ 0)
    (hab : s.transmission_active = true) :
    (UMSUpdate pt env s).1 = true ∧
    transmits (UMSUpdate pt env s).2.2 = [] ∧
    (UMSUpdate pt env s).2.1 =
      { s with
        timestamp := if s.has_time_provider then s.timestamp
          else (s.timestamp + 1) % 2 ^ 32
        buffers := s.buffers.set s.write_idx
          { timestamp := if s.has_time_provider then pt % 2 ^ 32 else s.timestamp
            channels := s.channel_count
            values := fillValues s.channel_count s.trace_vars env
              (s.buffers.getD s.write_idx zeroSample).values }
        write_idx := s.pending_idx
        pending_idx := s.write_idx } := by
  unfold UMSUpdate
  by_cases hp : s.has_time_provider <;>
    by_cases he : s.has_enter <;>
      by_cases hx : s.has_exit <;>
        simp [hi, hc, hab, hp, he, hx, transmits, critEnterEvents, critExitEvents]

/-- UMSTransmissionComplete with queued data (pending and transmit roles
differ) swaps the two roles and invokes the transmit callback exactly once,
on the old pending slot. -/
theorem complete_swap (s : UMSState) (hi : s.initialized = true)
    (hpt : s.pending_idx ≠ s.transmit_idx) :
    (UMSTransmissionComplete s).1 =
      { s with pending_idx := s.transmit_idx, transmit_idx := s.pending_idx } ∧
    transmits (UMSTransmissionComplete s).2 =
      [(s.pending_idx, s.buffers.getD s.pending_idx zeroSample,
        ums_sample_size s.channel_count)] := by
  unfold UMSTransmissionComplete
  by_cases he : s.has_enter <;>
    by_cases hx : s.has_exit <;>
      simp [hi, hpt, he, hx, transmits, critEnterEvents, critExitEvents,
        List.getD_eq_getElem?_getD]

/-- One UMSTrace call keeps the channel count within capacity. -/
theorem trace_count_le (p : Option Nat) (s : UMSState)
    (h : s.channel_count ≤ UMS_MAX_CHANNELS) :
    (UMSTrace p s).2.channel_count ≤ UMS_MAX_CHANNELS := by
  unfold UMSTrace
  by_cases hi : s.initialized = false
  · simpa [hi] using h
  · match p with
    | none => simpa [hi] using h
    | some q =>
      by_cases hc : s.channel_count ≥ UMS_MAX_CHANNELS
      · simpa [hi, hc] using h
      · simp [hi, hc]
        omega

/-- A whole UMSTrace sequence keeps the channel count within capacity. -/
theorem runTraces_count_le (args : List (Option Nat)) :
    ∀ (s : UMSState) (k : Nat), s.channel_count ≤ UMS_MAX_CHANNELS →
      (args.foldl traceStep (s, k)).1.channel_count ≤ UMS_MAX_CHANNELS := by
  induction args with
  | nil => intro s k h; exact h
  | cons p rest ih =>
    intro s k h
    simp only [List.foldl_cons, traceStep]
    exact ih _ _ (trace_count_le p s h)

/-- C2: after a successful UMSSetup and a registration sequence leaving at
least one channel, if UMSUpdate is called twice before any
UMSTransmissionComplete then the first call starts exactly one
transmit-callback invocation, the second call starts none, and the next
UMSTransmissionComplete starts exactly one further transmission whose
sample buffer carries the second call's data (its channel values read from
the registered variables at the second call), so no send is lost or
duplicated. -/
theorem C2_queue_law (pc : Option Config) (s0 s1 : UMSState)
    (hsetup : UMSSetup pc s0 = (true, s1)) (args : List (Option Nat))
    (hcnt : (runTraces args s1).1.channel_count ≠ 0)
    (pt1 pt2 : Nat) (env1 env2 : Nat → Nat) :
    (UMSUpdate pt1 env1 (runTraces args s1).1).1 = true ∧
    (transmits (UMSUpdate pt1 env1 (runTraces args s1).1).2.2).length = 1 ∧
    (UMSUpdate pt2 env2 (UMSUpdate pt1 env1 (runTraces args s1).1).2.1).1 = true ∧
    transmits (UMSUpdate pt2 env2 (UMSUpdate pt1 env1 (runTraces args s1).1).2.1).2.2 = [] ∧
    ∃ smp : Sample,
      transmits (UMSTransmissionComplete
          (UMSUpdate pt2 env2 (UMSUpdate pt1 env1 (runTraces args s1).1).2.1).2.1).2 =
        [(1, smp, ums_sample_size (runTraces args s1).1.channel_count)] ∧
      smp.channels = (runTraces args s1).1.channel_count ∧
      smp.values.take (runTraces args s1).1.channel_count =
        (List.range (runTraces args s1).1.channel_count).map
          (fun i => env2 ((runTraces args s1).1.trace_vars.getD i 0) % 2 ^ 32) := by
  obtain ⟨hw, hp, ht, hact, hini, hzero, hts, hbuf, -⟩ := setup_success pc s0 s1 hsetup
  have hpr :
      (runTraces args s1).1.buffers = s1.buffers ∧
      (runTraces args s1).1.write_idx = s1.write_idx ∧
      (runTraces args s1).1.pending_idx = s1.pending_idx ∧
      (runTraces args s1).1.transmit_idx = s1.transmit_idx ∧
      (runTraces args s1).1.timestamp = s1.timestamp ∧
      (runTraces args s1).1.has_time_provider = s1.has_time_provider ∧
      (runTraces args s1).1.transmission_active = s1.transmission_active ∧
      (runTraces args s1).1.initialized = s1.initialized :=
    runTraces_preserves args s1 0
  have hRi : (runTraces args s1).1.initialized = true := by
    rw [hpr.2.2.2.2.2.2.2, hini]
  have hRw : (runTraces args s1).1.write_idx = 0 := by rw [hpr.2.1, hw]
  have hRp : (runTraces args s1).1.pending_idx = 1 := by rw [hpr.2.2.1, hp]
  have hRt : (runTraces args s1).1.transmit_idx = 2 := by rw [hpr.2.2.2.1, ht]
  have hRact : (runTraces args s1).1.transmission_active = false := by
    rw [hpr.2.2.2.2.2.2.1, hact]
  have hRbuf : (runTraces args s1).1.buffers = List.replicate 3 zeroSample := by
    rw [hpr.1, hbuf]
  have hRc6 : (runTraces args s1).1.channel_count ≤ UMS_MAX_CHANNELS :=
    runTraces_count_le args s1 0 (by rw [hzero]; omega)
  have hlt : (runTraces args s1).1.write_idx < (runTraces args s1).1.buffers.length := by
    rw [hRw, hRbuf]; simp
  have h1 := update_start_state pt1 env1 (runTraces args s1).1 hRi hcnt hRact
  have htx1 := update_start_transmits pt1 env1 (runTraces args s1).1 hRi hcnt hRact hlt
  refine ⟨h1.1, by rw [htx1]; rfl, ?_, ?_, ?_⟩
  · rw [h1.2]
    exact (update_busy_state pt2 env2 _ (by simp [hRi]) (by simpa using hcnt) (by simp)).1
  · rw [h1.2]
    exact (update_busy_state pt2 env2 _ (by simp [hRi]) (by simpa using hcnt) (by simp)).2.1
  · set S1 := (UMSUpdate pt1 env1 (runTraces args s1).1).2.1 with hS1
    have f1i : S1.initialized = true := by rw [h1.2]; simp [hRi]
    have f1c : S1.channel_count = (runTraces args s1).1.channel_count := by
      rw [h1.2]
    have f1a : S1.transmission_active = true := by rw [h1.2]
    have f1w : S1.write_idx = 1 := by rw [h1.2]; simp [hRp]
    have f1t : S1.transmit_idx = 0 := by rw [h1.2]; simp [hRw]
    have f1tv : S1.trace_vars = (runTraces args s1).1.trace_vars := by
      rw [h1.2]
    have f1b : S1.buffers =
        (List.replicate 3 zeroSample).set 0
          { timestamp := if (runTraces args s1).1.has_time_provider
              then pt1 % 2 ^ 32 else (runTraces args s1).1.timestamp
            channels := (runTraces args s1).1.channel_count
            values := fillValues (runTraces args s1).1.channel_count
              (runTraces args s1).1.trace_vars env1
              ((runTraces args s1).1.buffers.getD (runTraces args s1).1.write_idx
                zeroSample).values } := by
      rw [h1.2]; simp [hRbuf, hRw]
    have f1b1 : S1.buffers.getD 1 zeroSample = zeroSample := by
      rw [f1b]; rfl
    have f1bl : S1.buffers.length = 3 := by rw [f1b]; rfl
    have h2 := update_busy_state pt2 env2 S1 f1i (by rw [f1c]; exact hcnt) f1a
    set S2 := (UMSUpdate pt2 env2 S1).2.1 with hS2
    have f2i : S2.initialized = true := by rw [h2.2.2]; simp [f1i]
    have f2p : S2.pending_idx = 1 := by rw [h2.2.2]; simp [f1w]
    have f2t : S2.transmit_idx = 0 := by rw [h2.2.2]; simp [f1t]
    have f2c : S2.channel_count = (runTraces args s1).1.channel_count := by
      rw [h2.2.2]; simp [f1c]
    have f2smp : S2.buffers.getD 1 zeroSample =
        { timestamp := if S1.has_time_provider then pt2 % 2 ^ 32 else S1.timestamp
          channels := S1.channel_count
          values := fillValues S1.channel_count S1.trace_vars env2
            (S1.buffers.getD S1.write_idx zeroSample).values } := by
      rw [h2.2.2]
      simp only []
      rw [List.getD_eq_getElem?_getD, f1w, List.getElem?_set_self (by rw [f1bl]; omega)]
      rfl
    have h3 := complete_swap S2 f2i (by rw [f2p, f2t]; omega)
    rw [h3.2, f2p, f2c, f2smp]
    refine ⟨_, rfl, by rw [f1c], ?_⟩
    simp only [f1c, f1tv, f1w, f1b1]
    have hz : (zeroSample.values).length = UMS_MAX_CHANNELS := by rfl
    exact fillValues_take _ _ _ _ (by rw [hz]; exact hRc6)

/-- Witness for C2: one channel at address 100; first update transmits
once, second update transmits nothing while the first send is in flight. -/
theorem C2_queue_law_witness :
    (UMSUpdate 0 (fun z => 1)
      (runTraces [some 100] (UMSSetup (some cfgMinimal) zeroState).2).1).1 = true ∧
    transmits (UMSUpdate 0 (fun z => 2)
      (UMSUpdate 0 (fun z => 1)
        (runTraces [some 100] (UMSSetup (some cfgMinimal) zeroState).2).1).2.1).2.2 = [] :=
  ⟨(C2_queue_law (some cfgMinimal) zeroState _ (by decide) [some 100] (by decide)
      0 0 (fun z => 1) (fun z => 2)).1,
    (C2_queue_law (some cfgMinimal) zeroState _ (by decide) [some 100] (by decide)
      0 0 (fun z => 1) (fun z => 2)).2.2.2.1⟩

/-- UMSTransmissionComplete with queued data (pending and transmit roles
differ) invokes the transmit callback on the old pending slot with its
current contents and the exact frame size. -/
theorem complete_transmits (s : UMSState) (hi : s.initialized = true)
    (hpt : s.pending_idx ≠ s.transmit_idx) :
    Event.transmit s.pending_idx (s.buffers.getD s.pending_idx zeroSample)
      (ums_sample_size s.channel_count) ∈ (UMSTransmissionComplete s).2 := by
  unfold UMSTransmissionComplete
  by_cases he : s.has_enter <;>
    by_cases hx : s.has_exit <;>
      simp [hi, hpt, he, hx, critEnterEvents, critExitEvents,
        List.getD_eq_getElem?_getD]

/-- C4: for every registered channel i and every value its backing variable
holds at the moment of a UMSUpdate call, the slot handed to the transmit
callback that fires for that call's sample contains that value
byte-for-byte, at the payload offset 4*i given by the cumulative widths of
the channels registered before it — both when the engine is idle and the
update itself starts the transmission, and when a transmission is in
flight, so the sample is queued and delivered by the next
UMSTransmissionComplete.  The hypothesis write_idx ≠ transmit_idx is the
role-bijection invariant of the rotation protocol, which holds in every
reachable state. -/
theorem C4_roundtrip (s : UMSState) (pt i : Nat) (env : Nat → Nat)
    (hi2 : s.initialized = true)
    (hb : s.buffers.length = 3) (hw : s.write_idx < 3)
    (hwt : s.write_idx ≠ s.transmit_idx)
    (hv : (s.buffers.getD s.write_idx zeroSample).values.length = UMS_MAX_CHANNELS)
    (hc6 : s.channel_count ≤ UMS_MAX_CHANNELS)
    (hic : i < s.channel_count) :
    (s.transmission_active = false →
      ∃ smp : Sample,
        Event.transmit s.write_idx smp (ums_sample_size s.channel_count) ∈
          (UMSUpdate pt env s).2.2 ∧
        ((samplePayloadBytes smp).drop (4 * i)).take 4 =
          le32 (env (s.trace_vars.getD i 0) % 2 ^ 32)) ∧
    (s.transmission_active = true →
      ∃ smp : Sample,
        Event.transmit s.write_idx smp (ums_sample_size s.channel_count) ∈
          (UMSTransmissionComplete (UMSUpdate pt env s).2.1).2 ∧
        ((samplePayloadBytes smp).drop (4 * i)).take 4 =
          le32 (env (s.trace_vars.getD i 0) % 2 ^ 32)) := by
  constructor
  · intro ha
    obtain ⟨ts, hmem⟩ := update_transmits pt env s hi2 (by omega) ha hb hw
    exact ⟨_, hmem,
      fill_payload_block s.channel_count s.trace_vars env _ _ i hv hc6 hic⟩
  · intro hab
    have hcne : s.channel_count ≠ 0 := by omega
    set S1 := (UMSUpdate pt env s).2.1 with hS1
    have h2 := update_busy_state pt env s hi2 hcne hab
    have g1 : S1.initialized = true := by rw [hS1, h2.2.2]; simp [hi2]
    have g2 : S1.pending_idx = s.write_idx := by rw [hS1, h2.2.2]
    have g3 : S1.transmit_idx = s.transmit_idx := by rw [hS1, h2.2.2]
    have g4 : S1.channel_count = s.channel_count := by rw [hS1, h2.2.2]
    have g5 : S1.buffers.getD S1.pending_idx zeroSample =
        { timestamp := if s.has_time_provider then pt % 2 ^ 32 else s.timestamp
          channels := s.channel_count
          values := fillValues s.channel_count s.trace_vars env
            (s.buffers.getD s.write_idx zeroSample).values } := by
      rw [hS1, h2.2.2]
      dsimp only
      rw [List.getD_eq_getElem?_getD, List.getElem?_set_self (by omega)]
      rfl
    have hm := complete_transmits S1 g1 (by rw [g2, g3]; exact hwt)
    rw [g5, g2, g4] at hm
    exact ⟨_, hm,
      fill_payload_block s.channel_count s.trace_vars env _ _ i hv hc6 hic⟩

/-- Witness for C4 covering both delivery paths: one registered channel at
address 100.  With the engine idle, the update's own callback carries the
byte image of 42 at payload offset 0; with that transmission still in
flight, a second update's value 77 is queued and its byte image is
delivered at payload offset 0 by the callback of the next
UMSTransmissionComplete. -/
theorem C4_roundtrip_witness :
    (∃ smp : Sample,
      Event.transmit
          (UMSTrace (some 100) (UMSSetup (some cfgMinimal) zeroState).2).2.write_idx smp
          (ums_sample_size
            (UMSTrace (some 100) (UMSSetup (some cfgMinimal) zeroState).2).2.channel_count) ∈
        (UMSUpdate 0 (fun p => if p = 100 then 42 else 0)
          (UMSTrace (some 100) (UMSSetup (some cfgMinimal) zeroState).2).2).2.2 ∧
      ((samplePayloadBytes smp).drop (4 * 0)).take 4 =
        le32 ((fun p : Nat => if p = 100 then 42 else 0)
          ((UMSTrace (some 100)
            (UMSSetup (some cfgMinimal) zeroState).2).2.trace_vars.getD 0 0) % 2 ^ 32)) ∧
    (∃ smp : Sample,
      Event.transmit
          (UMSUpdate 0 (fun p => if p = 100 then 42 else 0)
            (UMSTrace (some 100)
              (UMSSetup (some cfgMinimal) zeroState).2).2).2.1.write_idx smp
          (ums_sample_size
            (UMSUpdate 0 (fun p => if p = 100 then 42 else 0)
              (UMSTrace (some 100)
                (UMSSetup (some cfgMinimal) zeroState).2).2).2.1.channel_count) ∈
        (UMSTransmissionComplete
          (UMSUpdate 0 (fun p => if p = 100 then 77 else 0)
            (UMSUpdate 0 (fun p => if p = 100 then 42 else 0)
              (UMSTrace (some 100)
                (UMSSetup (some cfgMinimal) zeroState).2).2).2.1).2.1).2 ∧
      ((samplePayloadBytes smp).drop (4 * 0)).take 4 =
        le32 ((fun p : Nat => if p = 100 then 77 else 0)
          ((UMSUpdate 0 (fun p => if p = 100 then 42 else 0)
            (UMSTrace (some 100)
              (UMSSetup (some cfgMinimal) zeroState).2).2).2.1.trace_vars.getD 0 0)
          % 2 ^ 32)) :=
  ⟨(C4_roundtrip (UMSTrace (some 100) (UMSSetup (some cfgMinimal) zeroState).2).2 0 0
      (fun p => if p = 100 then 42 else 0) (by decide) (by decide) (by decide)
      (by decide) (by decide) (by decide) (by decide)).1 (by decide),
    (C4_roundtrip
      (UMSUpdate 0 (fun p => if p = 100 then 42 else 0)
        (UMSTrace (some 100) (UMSSetup (some cfgMinimal) zeroState).2).2).2.1 0 0
      (fun p => if p = 100 then 77 else 0) (by decide) (by decide) (by decide)
      (by decide) (by decide) (by decide) (by decide)).2 (by decide)⟩
